import Mathlib

/-!
Shallow embedding of the scope/permission validation and token-exchange
pipeline of the github-repository-token-issuer service.

Sources embedded here:
* function/scopes.go      : the static policy tables.
* function/validation.go  : ValidateScopes, ParseAllowedOwners, ValidateOwnerAllowed.
* function/handlers.go    : TokenHandler, TokenResponse, ErrorResponse, writeError.
* function/github.go is absent from the available sources (only its test file
  github_test.go is present); VerifyRequestedScopes and the shapes of the
  results of GetPrivateKey, CreateJWT, GetInstallationID and
  CreateInstallationToken are modelled from the specification, as marked on
  each such definition.

Modelling conventions:
* Go strings are Lean String values; a missing header or environment variable
  is the empty string, exactly as Go http.Header.Get and os.Getenv return it.
* Go maps iterated with range have an unspecified iteration order; such a map
  is embedded as an association list whose order stands for one possible
  iteration order, and claims about arbitrary requests quantify over the list.
* The external collaborators (identity verification, secret fetch, JWT
  creation, installation lookup, token creation) are modelled by the results
  the process observes for one particular request, carried in an environment
  record; the handler additionally records which collaborator calls it makes,
  in order, so that claims about the absence of network calls are statable.
-/

namespace TokenIssuer

/-- Decidable equality for Except values, used to evaluate the embedded
functions on concrete inputs. -/
instance {ε α : Type} [DecidableEq ε] [DecidableEq α] : DecidableEq (Except ε α) := fun a b =>
  match a, b with
  | .error e1, .error e2 =>
    if h : e1 = e2 then isTrue (by rw [h]) else
      isFalse (fun hh => h (Except.error.injEq e1 e2 ▸ hh))
  | .error _, .ok _ => isFalse (fun hh => Except.noConfusion hh)
  | .ok _, .error _ => isFalse (fun hh => Except.noConfusion hh)
  | .ok a1, .ok a2 =>
    if h : a1 = a2 then isTrue (by rw [h]) else
      isFalse (fun hh => h (Except.ok.injEq a1 a2 ▸ hh))

/-- Character class of Go unicode.IsSpace restricted to the code points it
accepts in the Latin-1 range: these are exactly the characters Go
strings.TrimSpace removes at either end of a string. -/
def isGoSpace (c : Char) : Bool :=
  c = ' ' || c = '\t' || c = '\n' || c = '\x0b' || c = '\x0c' || c = '\r' ||
    c = '\u0085' || c = ' '

/-- Embedding of Go strings.TrimSpace: drop leading and trailing whitespace. -/
def goTrimSpace (s : String) : String :=
  String.mk (((s.data.dropWhile isGoSpace).reverse.dropWhile isGoSpace).reverse)

/-- Embedding of Go strings.Contains: does the second string occur as a
contiguous substring of the first? -/
def goContains (s sub : String) : Bool :=
  (List.range (s.data.length + 1)).any (fun i => sub.data.isPrefixOf (s.data.drop i))

/-- Splitting of a character list at a separator character, keeping empty
segments, with the result always nonempty. -/
def splitChars (sep : Char) : List Char → List (List Char)
  | [] => [[]]
  | c :: rest =>
    match splitChars sep rest with
    | [] => [[c]]
    | hd :: tl => if c = sep then [] :: hd :: tl else (c :: hd) :: tl

/-- Embedding of Go strings.Split for the single-character separators used in
validation.go (comma and slash): split into the segments between occurrences
of the separator, keeping empty segments. -/
def goSplit (s : String) (sep : Char) : List String :=
  (splitChars sep s.data).map String.mk

/-- AllowedScopes from function/scopes.go: repository permission scopes and
their allowed permission levels, embedded as a lookup function (a Go map
literal; lookup of an absent key is none). -/
def AllowedScopes : String → Option (List String)
  | "actions" => some ["read", "write"]
  | "attestations" => some ["read", "write"]
  | "checks" => some ["read", "write"]
  | "contents" => some ["read", "write"]
  | "custom_properties" => some ["read", "write"]
  | "dependabot_secrets" => some ["read", "write"]
  | "deployments" => some ["read", "write"]
  | "discussions" => some ["read", "write"]
  | "environments" => some ["read", "write"]
  | "issues" => some ["read", "write"]
  | "merge_queues" => some ["read", "write"]
  | "packages" => some ["read", "write"]
  | "pages" => some ["read", "write"]
  | "projects" => some ["read", "write"]
  | "pull_requests" => some ["read", "write"]
  | "secrets" => some ["read", "write"]
  | "statuses" => some ["read", "write"]
  | "variables" => some ["read", "write"]
  | "workflows" => some ["read", "write"]
  | "administration" => some ["read"]
  | "code_scanning" => some ["read"]
  | "dependabot_alerts" => some ["read"]
  | "secret_scanning" => some ["read"]
  | "security_advisories" => some ["read"]
  | _ => none

/-- BlacklistedScopes from function/scopes.go: the deny set is the empty Go
map literal, so membership lookup yields the zero value false for every
scope identifier. Both tables are package-level values initialized once and
only ever read, which the embedding reflects by making them plain
definitions. -/
def BlacklistedScopes : String → Bool := fun _ => false

/-- Validation failures produced by ValidateScopes in function/validation.go.
The source returns fmt.Errorf error values; the embedding keeps the violating
data structured and renders the message separately. -/
inductive ScopeValidationError where
  | scopeBlacklisted (scopeID : String)
  | scopeNotInAllowlist (scopeID : String)
  | permissionNotAllowed (scopeID : String) (permission : String) (allowed : List String)
  deriving DecidableEq, Repr

/-- Scope identifier named by a ScopeValidationError value. -/
def ScopeValidationError.scopeID : ScopeValidationError → String
  | .scopeBlacklisted s => s
  | .scopeNotInAllowlist s => s
  | .permissionNotAllowed s _ _ => s

/-- Rendering of a Go string slice as fmt %v prints it: elements separated by
single spaces inside square brackets. -/
def goSliceFormat (xs : List String) : String :=
  "[" ++ String.intercalate " " xs ++ "]"

/-- Error message of a ScopeValidationError, matching the fmt.Errorf format
strings in ValidateScopes. -/
def ScopeValidationError.message : ScopeValidationError → String
  | .scopeBlacklisted s => "scope \x27" ++ s ++ "\x27 is not allowed"
  | .scopeNotInAllowlist s => "scope \x27" ++ s ++ "\x27 is not in allowlist"
  | .permissionNotAllowed s p allowed =>
      "permission \x27" ++ p ++ "\x27 not allowed for scope \x27" ++ s ++
        "\x27 (allowed: " ++ goSliceFormat allowed ++ ")"

/-- Loop body of ValidateScopes, inlined in the source: check the blacklist
first, then presence in the allowlist, then containment of the permission in
the allowed levels, reporting the first failed check. -/
def checkScope (scopeID permission : String) : Option ScopeValidationError :=
  if BlacklistedScopes scopeID then
    some (.scopeBlacklisted scopeID)
  else
    match AllowedScopes scopeID with
    | none => some (.scopeNotInAllowlist scopeID)
    | some allowedLevels =>
      if allowedLevels.contains permission then none
      else some (.permissionNotAllowed scopeID permission allowedLevels)

/-- ValidateScopes from function/validation.go: iterate over the requested
(scope, permission) pairs, applying the three checks of checkScope to each
pair and returning the first violation. The list order stands for the
unspecified Go map iteration order. -/
def ValidateScopes : List (String × String) → Except ScopeValidationError Unit
  | [] => .ok ()
  | (scopeID, permission) :: rest =>
    match checkScope scopeID permission with
    | some e => .error e
    | none => ValidateScopes rest

/-- Predicate: a single (scope, permission) pair passes all three checks of
ValidateScopes. -/
def scopePairValid (scopeID permission : String) : Prop :=
  BlacklistedScopes scopeID = false ∧
    ∃ allowedLevels, AllowedScopes scopeID = some allowedLevels ∧
      allowedLevels.contains permission = true

instance (s p : String) : Decidable (scopePairValid s p) := by
  unfold scopePairValid
  exact inferInstance

/-- Loop body of ParseAllowedOwners: append the trimmed part when it is
nonempty. -/
def appendOwner (owners : List String) (part : String) : List String :=
  let trimmed := goTrimSpace part
  if trimmed ≠ "" then owners ++ [trimmed] else owners

/-- ParseAllowedOwners from function/validation.go, with the value of the
GITHUB_ALLOWED_OWNERS environment variable passed explicitly: split on
commas, trim whitespace from each part, keep the nonempty parts. -/
def ParseAllowedOwners (envValue : String) : List String :=
  (goSplit envValue ',').foldl appendOwner []

/-- Failures of ValidateOwnerAllowed in function/validation.go. -/
inductive OwnerValidationError where
  | invalidRepositoryFormat (repository : String)
  | ownerNotAllowed (owner : String)
  deriving DecidableEq, Repr

/-- ValidateOwnerAllowed from function/validation.go: an empty allowed-owner
list allows every owner; otherwise the owner component before the first
slash must be a case-sensitive exact member of the list. -/
def ValidateOwnerAllowed (repository : String) (allowedOwners : List String) :
    Except OwnerValidationError Unit :=
  if allowedOwners.length = 0 then
    .ok ()
  else
    let parts := goSplit repository '/'
    if parts.length < 2 then
      .error (.invalidRepositoryFormat repository)
    else
      let owner := parts.headD ""
      if allowedOwners.contains owner then
        .ok ()
      else
        .error (.ownerNotAllowed owner)

/-- Parse failures of the scope query-parameter loop in TokenHandler. -/
inductive ParseScopeError where
  | duplicateScope (param : String)
  | invalidPermission (param : String) (value : String)
  deriving DecidableEq, Repr

/-- Error message of a ParseScopeError, matching the fmt.Sprintf format
strings in TokenHandler. -/
def ParseScopeError.message : ParseScopeError → String
  | .duplicateScope param => "duplicate scope \x27" ++ param ++ "\x27 in request"
  | .invalidPermission param value =>
      "invalid permission \x27" ++ value ++ "\x27 for scope \x27" ++ param ++
        "\x27 (must be \x27read\x27 or \x27write\x27)"

/-- One entry of the parsed query, as produced by Go url.Values: a parameter
name together with its nonempty list of values, split into the first value
and the remaining ones. The position of the entry in the request list stands
for the unspecified Go map iteration order of the range loop in
TokenHandler. -/
structure QueryEntry where
  param : String
  firstValue : String
  restValues : List String
  deriving DecidableEq, Repr

/-- Scope-parsing loop of TokenHandler (handlers.go): reject a parameter with
more than one value as a duplicate, then reject a value that is neither read
nor write, and otherwise collect the (scope, permission) pairs. Go url.Values
has distinct keys, so the resulting association list has distinct scope
identifiers. -/
def parseScopes : List QueryEntry → Except ParseScopeError (List (String × String))
  | [] => .ok []
  | e :: rest =>
    if e.restValues.length ≠ 0 then
      .error (.duplicateScope e.param)
    else if e.firstValue ≠ "read" ∧ e.firstValue ≠ "write" then
      .error (.invalidPermission e.param e.firstValue)
    else
      match parseScopes rest with
      | .error pe => .error pe
      | .ok scopes => .ok ((e.param, e.firstValue) :: scopes)

/-- UTC timestamp carried by a GitHub installation token; the GitHub API
reports token expiry in UTC. -/
structure GoTime where
  year : Nat
  month : Nat
  day : Nat
  hour : Nat
  minute : Nat
  second : Nat
  deriving DecidableEq, Repr

/-- Zero padding of a number to at least two digits. -/
def pad2 (n : Nat) : String :=
  if n < 10 then "0" ++ toString n else toString n

/-- Zero padding of a number to at least four digits. -/
def pad4 (n : Nat) : String :=
  if n < 10 then "000" ++ toString n
  else if n < 100 then "00" ++ toString n
  else if n < 1000 then "0" ++ toString n
  else toString n

/-- Embedding of Go time.Time.Format(time.RFC3339) for a UTC instant, the
form used by TokenHandler on the token expiry. -/
def formatRFC3339 (t : GoTime) : String :=
  pad4 t.year ++ "-" ++ pad2 t.month ++ "-" ++ pad2 t.day ++ "T" ++
    pad2 t.hour ++ ":" ++ pad2 t.minute ++ ":" ++ pad2 t.second ++ "Z"

/-- Modelled from the spec: the IssuedCredential returned by the authority
when CreateInstallationToken succeeds, an opaque token string together with
its expiry. The function itself lives in function/github.go, which is absent
from the available sources; TokenHandler only reads the token string and the
expiry from it. -/
structure IssuedToken where
  token : String
  expiresAt : GoTime
  deriving DecidableEq, Repr

/-- TokenResponse from function/handlers.go, the successful response body:
the token, its expiry as a formatted timestamp and the echoed scope map
(an association list with distinct keys standing for the Go map). -/
structure TokenResponse where
  token : String
  expiresAt : String
  scopes : List (String × String)
  deriving DecidableEq, Repr

/-- ErrorResponse from function/handlers.go: a message plus an optional
details object (a JSON object modelled as a keyed list). The details field
carries omitempty, so none stands for an absent field. -/
structure ErrorResponse where
  error : String
  details : Option (List (String × List String))
  deriving DecidableEq, Repr

/-- Body of a handler response: either the success payload or an error
payload. -/
inductive ResponseBody where
  | success (payload : TokenResponse)
  | failure (payload : ErrorResponse)
  deriving DecidableEq, Repr

/-- HTTP response written by the handler: status code plus JSON body. -/
structure HttpResponse where
  status : Nat
  body : ResponseBody
  deriving DecidableEq, Repr

/-- External collaborator calls the handler can make, with the arguments it
passes; all four reach the network (identity verification fetches the JWKS,
the private key comes from Secret Manager, the last two query the GitHub
API). -/
inductive ExtCall where
  | validateOIDC (token : String)
  | getPrivateKey (projectID : String)
  | getInstallationID (repository : String)
  | createInstallationToken (installationID : Int) (scopes : List (String × String))
  deriving DecidableEq, Repr

/-- Inbound HTTP request as TokenHandler observes it: method, path, the
Authorization header (empty string when absent, as http.Header.Get reports
it) and the parsed query. -/
structure HttpRequest where
  method : String
  path : String
  authorization : String
  query : List QueryEntry
  deriving DecidableEq, Repr

/-- Process environment and collaborator behaviour for one request: the
environment variables the handler reads, and the results each external
collaborator would return if called. CreateJWT lives in the absent
function/github.go, so only the shape of its result is modelled. -/
structure Env where
  githubAppID : String
  googleCloudProject : String
  gcpProject : String
  githubAllowedOwners : String
  validateOIDC : String → Except String String
  getPrivateKeyResult : Except String String
  createJWTResult : Except String String
  getInstallationIDResult : Except String Int
  createInstallationTokenResult : Except String IssuedToken

/-- Result of one handler run: the response written plus the external calls
made, in order. -/
structure HandlerResult where
  response : HttpResponse
  calls : List ExtCall
  deriving DecidableEq, Repr

/-- writeError from function/handlers.go, paired with the call trace of the
run: a JSON error body with the given status, message and optional details
object. -/
def writeError (status : Nat) (message : String)
    (details : Option (List (String × List String))) (calls : List ExtCall) :
    HandlerResult :=
  { response := { status := status, body := .failure { error := message, details := details } },
    calls := calls }

/-- Tail of TokenHandler after validation has passed: GCP project
resolution, secret fetch, JWT creation, installation lookup and token
creation, in source order, accumulating the call trace started by calls1. -/
def issueToken (env : Env) (repository : String) (scopes : List (String × String))
    (calls1 : List ExtCall) : HandlerResult :=
  let projectID :=
    if env.googleCloudProject ≠ "" then env.googleCloudProject
    else env.gcpProject
  if projectID = "" then
    writeError 500 "GCP project ID not configured" none calls1
  else
    let calls2 := calls1 ++ [ExtCall.getPrivateKey projectID]
    match env.getPrivateKeyResult with
    | .error e => writeError 500 e none calls2
    | .ok _privateKey =>
      match env.createJWTResult with
      | .error e => writeError 500 ("failed to create JWT: " ++ e) none calls2
      | .ok _jwtToken =>
        let calls3 := calls2 ++ [ExtCall.getInstallationID repository]
        match env.getInstallationIDResult with
        | .error e =>
          if goContains e "not installed" then
            writeError 403 e none calls3
          else
            writeError 503 ("GitHub API error: " ++ e) none calls3
        | .ok installationID =>
          let calls4 := calls3 ++ [ExtCall.createInstallationToken installationID scopes]
          match env.createInstallationTokenResult with
          | .error e =>
            if goContains e "insufficient permissions" ||
                goContains e "fewer scopes" || goContains e "suspended" then
              writeError 403 e none calls4
            else
              writeError 503 ("GitHub API error: " ++ e) none calls4
          | .ok tok =>
            { response :=
                { status := 200,
                  body := .success
                    { token := tok.token,
                      expiresAt := formatRFC3339 tok.expiresAt,
                      scopes := scopes } },
              calls := calls4 }

/-- TokenHandler from function/handlers.go, embedded as a pure function from
the request and the environment to the response and the trace of external
calls. The stages appear in source order: path, method, Authorization header
(case-sensitive Bearer prefix check as in strings.HasPrefix, prefix removal
as in strings.TrimPrefix, then empty-token check), identity verification,
scope parsing, nonempty-scope check, policy validation, and then the
issueToken tail. -/
def TokenHandler (req : HttpRequest) (env : Env) : HandlerResult :=
  if req.path ≠ "/token" then
    writeError 404 "not found" none []
  else if req.method ≠ "POST" then
    writeError 405 "method not allowed" none []
  else if req.authorization = "" then
    writeError 401 "missing Authorization header" none []
  else if ¬ ("Bearer ".data.isPrefixOf req.authorization.data) then
    writeError 401 "invalid Authorization header format (expected \x27Bearer <token>\x27)" none []
  else
    let oidcToken := String.mk (req.authorization.data.drop 7)
    if oidcToken = "" then
      writeError 401 "empty token in Authorization header" none []
    else
      match env.validateOIDC oidcToken with
      | .error e =>
          writeError 401 ("invalid OIDC token: " ++ e) none [.validateOIDC oidcToken]
      | .ok repository =>
        let calls1 := [ExtCall.validateOIDC oidcToken]
        match parseScopes req.query with
        | .error pe => writeError 400 pe.message none calls1
        | .ok scopes =>
          if scopes.length = 0 then
            writeError 400 "at least one scope is required" none calls1
          else
            match ValidateScopes scopes with
            | .error ve => writeError 400 ve.message none calls1
            | .ok _ => issueToken env repository scopes calls1

/-- Modelled from the spec: the GrantedPermissionSet record of the authority
(go-github InstallationPermissions), with one optional access-level field per
repository scope; function/github.go, where it is consumed, is absent from
the available sources. The field names follow the test file github_test.go,
including the renamed fields for projects and secret_scanning. -/
structure InstallationPermissions where
  actions : Option String := none
  administration : Option String := none
  attestations : Option String := none
  checks : Option String := none
  contents : Option String := none
  dependabotSecrets : Option String := none
  deployments : Option String := none
  discussions : Option String := none
  environments : Option String := none
  issues : Option String := none
  mergeQueues : Option String := none
  packages : Option String := none
  pages : Option String := none
  repositoryProjects : Option String := none
  pullRequests : Option String := none
  secretScanningAlerts : Option String := none
  secrets : Option String := none
  statuses : Option String := none
  workflows : Option String := none
  deriving DecidableEq, Repr

/-- Modelled from the spec: the translation table from scope identifiers to
the named fields of the granted permission set, as exercised field by field
in github_test.go; projects maps to the repositoryProjects field and
secret_scanning to the secretScanningAlerts field. -/
def permissionForScope (g : InstallationPermissions) : String → Option String
  | "actions" => g.actions
  | "administration" => g.administration
  | "attestations" => g.attestations
  | "checks" => g.checks
  | "contents" => g.contents
  | "dependabot_secrets" => g.dependabotSecrets
  | "deployments" => g.deployments
  | "discussions" => g.discussions
  | "environments" => g.environments
  | "issues" => g.issues
  | "merge_queues" => g.mergeQueues
  | "packages" => g.packages
  | "pages" => g.pages
  | "projects" => g.repositoryProjects
  | "pull_requests" => g.pullRequests
  | "secret_scanning" => g.secretScanningAlerts
  | "secrets" => g.secrets
  | "statuses" => g.statuses
  | "workflows" => g.workflows
  | _ => none

/-- Failures of VerifyRequestedScopes: a nil granted permission set, or the
collected list of requested scope identifiers whose granted level is missing
or mismatched. -/
inductive ScopeVerifyError where
  | noPermissions
  | insufficientPermissions (missing : List String)
  deriving DecidableEq, Repr

/-- Error message of a ScopeVerifyError; the test file only constrains the
messages to contain the words used here. -/
def ScopeVerifyError.message : ScopeVerifyError → String
  | .noPermissions => "installation has no permissions"
  | .insufficientPermissions missing =>
      "insufficient permissions: missing scopes " ++ goSliceFormat missing

/-- Modelled from the spec: VerifyRequestedScopes of the absent
function/github.go. For every requested (scope, level) pair the granted set
must hold exactly the requested level for that scope (the subset check is
per-scope exact, with no read-implies-write hierarchy); all missing or
mismatched scope identifiers are collected before failing; granted scopes
that were not requested are ignored; a nil granted set fails outright. -/
def VerifyRequestedScopes (requested : List (String × String))
    (granted : Option InstallationPermissions) : Except ScopeVerifyError Unit :=
  match granted with
  | none => .error .noPermissions
  | some g =>
    let missing :=
      (requested.filter (fun sp => permissionForScope g sp.1 ≠ some sp.2)).map (·.1)
    if missing.length = 0 then .ok () else .error (.insufficientPermissions missing)

/-! Concrete fixtures used by witnesses and counterexamples. -/

/-- Expiry timestamp used by the concrete fixtures. -/
def fixtureTime : GoTime := { year := 2026, month := 1, day := 11, hour := 13, minute := 0, second := 0 }

/-- Environment in which every collaborator succeeds: the identity token
verifies to the repository acme/widgets, the installation exists and the
authority mints a token. -/
def happyEnv : Env :=
  { githubAppID := "12345"
    googleCloudProject := "demo-project"
    gcpProject := ""
    githubAllowedOwners := ""
    validateOIDC := fun _ => .ok "acme/widgets"
    getPrivateKeyResult := .ok "PEM-PRIVATE-KEY"
    createJWTResult := .ok "app-jwt"
    getInstallationIDResult := .ok 42
    createInstallationTokenResult := .ok { token := "ghs_example", expiresAt := fixtureTime } }

/-! Theorems about the embedded program, one per claim. -/

/-- Helper: the accumulating loop of ParseAllowedOwners appends exactly the
nonempty trimmed parts. -/
lemma parseAllowedOwners_foldl (l : List String) (acc : List String) :
    l.foldl appendOwner acc =
      acc ++ (l.map goTrimSpace).filter (fun s => s ≠ "") := by
  induction l generalizing acc with
  | nil => simp
  | cons hd tl ih =>
    rw [List.foldl_cons, ih]
    by_cases h : goTrimSpace hd = ""
    · simp [appendOwner, h]
    · simp [appendOwner, h]

/-- C10: ParseAllowedOwners splits the configured owner-allowlist string on
commas, trims leading and trailing whitespace from each segment and drops
empty segments; an unset, empty or whitespace/comma-only value yields the
empty owner list, which disables the owner filter, and a value of one space,
acme, space, comma, space, beta, space yields exactly the two owners acme
and beta. -/
theorem parseAllowedOwners_spec :
    (∀ envValue, ParseAllowedOwners envValue =
      ((goSplit envValue ',').map goTrimSpace).filter (fun s => s ≠ "")) ∧
    ParseAllowedOwners "" = [] ∧
    ParseAllowedOwners "  ,  ,  " = [] ∧
    ParseAllowedOwners " acme , beta " = ["acme", "beta"] ∧
    (∀ repository, ValidateOwnerAllowed repository [] = .ok ()) := by
  refine ⟨fun envValue => ?_, by decide, by decide, by decide, fun repository => rfl⟩
  unfold ParseAllowedOwners
  simpa using parseAllowedOwners_foldl (goSplit envValue ',') []

/-- C8: the static policy tables are disjoint: every scope identifier is
outside the deny set or outside the permit mapping (in this revision the
deny set is empty, so the first disjunct always holds); both tables are
plain definitions, initialized once and never mutated. -/
theorem blacklist_allowlist_disjoint :
    ∀ scopeID : String,
      BlacklistedScopes scopeID = false ∨ AllowedScopes scopeID = none :=
  fun _ => Or.inl rfl

/-- Helper: success of VerifyRequestedScopes on a present granted set is
exactly the per-scope exact match of every requested pair. -/
lemma verifyRequestedScopes_ok_iff (requested : List (String × String))
    (g : InstallationPermissions) :
    VerifyRequestedScopes requested (some g) = .ok () ↔
      ∀ sp ∈ requested, permissionForScope g sp.1 = some sp.2 := by
  unfold VerifyRequestedScopes
  constructor
  · intro h sp hsp
    by_contra hne
    have hmem : sp ∈ requested.filter (fun sp => permissionForScope g sp.1 ≠ some sp.2) :=
      List.mem_filter.mpr ⟨hsp, by simpa using hne⟩
    have hne2 := List.ne_nil_of_mem hmem
    have hlen : (requested.filter
        (fun sp => permissionForScope g sp.1 ≠ some sp.2)).length ≠ 0 := by
      simpa [List.length_eq_zero] using hne2
    simp only [List.length_map, if_neg hlen] at h
    exact Except.noConfusion h
  · intro h
    have hfil : requested.filter (fun sp => permissionForScope g sp.1 ≠ some sp.2) = [] := by
      rw [List.filter_eq_nil_iff]
      intro sp hsp
      simpa using h sp hsp
    simp [hfil]
    exact fun x x1 hx => h (x, x1) hx

/-- C1: VerifyRequestedScopes (modelled from the spec, function/github.go
being absent) succeeds only if every requested (scope, level) pair has a
granted entry holding exactly the accepted level for it; requesting write
when only read is granted is rejected, and granted scopes outside the
request are ignored, so any superset of the request is accepted. -/
theorem verifyRequestedScopes_subset_rule :
    ∀ (requested : List (String × String)) (granted : Option InstallationPermissions),
      (VerifyRequestedScopes requested granted = .ok () →
        ∃ g, granted = some g ∧
          ∀ sp ∈ requested, permissionForScope g sp.1 = some sp.2) ∧
      (∀ g, granted = some g →
        (∀ sp ∈ requested, permissionForScope g sp.1 = some sp.2) →
        VerifyRequestedScopes requested granted = .ok ()) ∧
      (∀ g scopeID, granted = some g → (scopeID, "write") ∈ requested →
        permissionForScope g scopeID = some "read" →
        VerifyRequestedScopes requested granted ≠ .ok ()) := by
  intro requested granted
  refine ⟨?_, ?_, ?_⟩
  · intro h
    match granted with
    | none => exact Except.noConfusion h
    | some g => exact ⟨g, rfl, (verifyRequestedScopes_ok_iff requested g).mp h⟩
  · rintro g rfl hall
    exact (verifyRequestedScopes_ok_iff requested g).mpr hall
  · rintro g scopeID rfl hmem hgr hok
    have := (verifyRequestedScopes_ok_iff requested g).mp hok (scopeID, "write") hmem
    rw [hgr] at this
    exact Option.noConfusion this (fun h => String.noConfusion h (by simp))

/-- Witness for C1: with contents write requested but only read granted the
check fails, and with contents read requested while the grant also carries
extra scopes the check succeeds. -/
theorem verifyRequestedScopes_subset_rule_witness :
    VerifyRequestedScopes [("contents", "write")]
        (some { contents := some "read" }) ≠ .ok () ∧
    VerifyRequestedScopes [("contents", "read")]
        (some { contents := some "read", issues := some "write", actions := some "read" }) =
      .ok () := by
  constructor
  · exact (verifyRequestedScopes_subset_rule [("contents", "write")]
      (some { contents := some "read" })).2.2 _ "contents" rfl (by decide) (by decide)
  · exact (verifyRequestedScopes_subset_rule [("contents", "read")]
      (some { contents := some "read", issues := some "write", actions := some "read" })).2.1
      _ rfl (by decide)

/-- C9: a request whose Authorization header is exactly the Bearer prefix
followed by nothing is answered 401 with the distinct empty-token error,
different from both the missing-header and the wrong-scheme errors, and no
external call of any kind is made. -/
theorem tokenHandler_emptyBearerToken (req : HttpRequest) (env : Env)
    (hpath : req.path = "/token") (hmethod : req.method = "POST")
    (hauth : req.authorization = "Bearer ") :
    TokenHandler req env =
      writeError 401 "empty token in Authorization header" none [] ∧
    (TokenHandler req env).calls = [] ∧
    ("empty token in Authorization header" : String) ≠ "missing Authorization header" ∧
    ("empty token in Authorization header" : String) ≠
      "invalid Authorization header format (expected \x27Bearer <token>\x27)" := by
  have h : TokenHandler req env =
      writeError 401 "empty token in Authorization header" none [] := by
    unfold TokenHandler
    rw [hpath, hmethod, hauth]
    simp +decide
  exact ⟨h, by rw [h]; rfl, by decide, by decide⟩

/-- Witness for C9 at a concrete request. -/
theorem tokenHandler_emptyBearerToken_witness :
    TokenHandler
        { method := "POST", path := "/token", authorization := "Bearer ",
          query := [{ param := "contents", firstValue := "read", restValues := [] }] }
        happyEnv =
      writeError 401 "empty token in Authorization header" none [] :=
  (tokenHandler_emptyBearerToken _ happyEnv rfl rfl rfl).1

/-- Helper: successful scope parsing returns exactly the (name, first value)
pairs of the query, in order. -/
lemma parseScopes_ok_shape (q : List QueryEntry) (scopes : List (String × String))
    (h : parseScopes q = .ok scopes) :
    scopes = q.map (fun e => (e.param, e.firstValue)) := by
  induction q generalizing scopes with
  | nil =>
    simp only [parseScopes] at h
    cases h
    rfl
  | cons e rest ih =>
    unfold parseScopes at h
    split at h
    · exact Except.noConfusion h
    · split at h
      · exact Except.noConfusion h
      · split at h
        · exact Except.noConfusion h
        · rename_i scopes2 hrec
          cases h
          simp [ih scopes2 hrec]

/-- Helper: a query containing a parameter with more than one value never
parses. -/
lemma parseScopes_dup_error (q : List QueryEntry)
    (hdup : ∃ e ∈ q, e.restValues ≠ []) :
    ∃ pe, parseScopes q = .error pe := by
  induction q with
  | nil => simp at hdup
  | cons e rest ih =>
    unfold parseScopes
    by_cases hd : e.restValues.length ≠ 0
    · exact ⟨.duplicateScope e.param, by simp [hd]⟩
    · have he : e.restValues = [] := by
        simpa [List.length_eq_zero] using hd
      by_cases hv : e.firstValue ≠ "read" ∧ e.firstValue ≠ "write"
      · exact ⟨.invalidPermission e.param e.firstValue, by simp [hd, hv]⟩
      · have hrest : ∃ e2 ∈ rest, e2.restValues ≠ [] := by
          rcases hdup with ⟨e2, he2, hne⟩
          rcases List.mem_cons.mp he2 with rfl | hmem
          · exact absurd he hne
          · exact ⟨e2, hmem, hne⟩
        rcases ih hrest with ⟨pe, hpe⟩
        exact ⟨pe, by simp [hd, hv, hpe]⟩

/-- Helper: when every single-valued parameter carries read or write, the
parse failure is the duplicate-scope error of the first duplicated
parameter in iteration order. -/
lemma parseScopes_dup_message (q : List QueryEntry)
    (hdup : ∃ e ∈ q, e.restValues ≠ [])
    (hval : ∀ e ∈ q, e.restValues = [] →
      e.firstValue = "read" ∨ e.firstValue = "write") :
    ∃ p, (∃ e ∈ q, e.param = p ∧ e.restValues ≠ []) ∧
      parseScopes q = .error (.duplicateScope p) := by
  induction q with
  | nil => simp at hdup
  | cons e rest ih =>
    by_cases hd : e.restValues.length ≠ 0
    · refine ⟨e.param, ⟨e, List.mem_cons_self e rest, rfl, ?_⟩, ?_⟩
      · simpa [List.length_eq_zero] using hd
      · unfold parseScopes
        simp [hd]
    · have he : e.restValues = [] := by
        simpa [List.length_eq_zero] using hd
      have hrest : ∃ e2 ∈ rest, e2.restValues ≠ [] := by
        rcases hdup with ⟨e2, he2, hne⟩
        rcases List.mem_cons.mp he2 with rfl | hmem
        · exact absurd he hne
        · exact ⟨e2, hmem, hne⟩
      have hvrest : ∀ e2 ∈ rest, e2.restValues = [] →
          e2.firstValue = "read" ∨ e2.firstValue = "write" :=
        fun e2 hm => hval e2 (List.mem_cons_of_mem e hm)
      rcases ih hrest hvrest with ⟨p, hp, hpe⟩
      have hv : ¬(e.firstValue ≠ "read" ∧ e.firstValue ≠ "write") := by
        rcases hval e (List.mem_cons_self e rest) he with h | h <;> simp [h]
      refine ⟨p, ?_, ?_⟩
      · rcases hp with ⟨e2, hm, hpar, hne⟩
        exact ⟨e2, List.mem_cons_of_mem e hm, hpar, hne⟩
      · unfold parseScopes
        simp [hd, hv, hpe]

/-- C2 (amended): a request that reaches scope parsing and whose query holds
some parameter with at least two values is answered 400 with no secret
fetch, installation lookup or token creation; when, in addition, every
single-valued parameter carries read or write, the reported error is the
duplicate-scope error of a duplicated parameter, regardless of whether its
values are equal. -/
theorem tokenHandler_duplicateScope (req : HttpRequest) (env : Env)
    (hpath : req.path = "/token") (hmethod : req.method = "POST")
    (hne : req.authorization ≠ "")
    (hbear : ("Bearer ".data.isPrefixOf req.authorization.data) = true)
    (htok : String.mk (req.authorization.data.drop 7) ≠ "")
    (hoidc : ∃ repo, env.validateOIDC (String.mk (req.authorization.data.drop 7)) = .ok repo)
    (hdup : ∃ e ∈ req.query, e.restValues ≠ []) :
    (TokenHandler req env).response.status = 400 ∧
    (∀ c ∈ (TokenHandler req env).calls, ∃ t, c = ExtCall.validateOIDC t) ∧
    ((∀ e ∈ req.query, e.restValues = [] →
        e.firstValue = "read" ∨ e.firstValue = "write") →
      ∃ p, (∃ e ∈ req.query, e.param = p ∧ e.restValues ≠ []) ∧
        (TokenHandler req env).response.body =
          .failure { error := ParseScopeError.message (.duplicateScope p), details := none }) := by
  rcases hoidc with ⟨repo, hrepo⟩
  rcases parseScopes_dup_error req.query hdup with ⟨pe, hpe⟩
  have hrun : TokenHandler req env =
      writeError 400 pe.message none
        [.validateOIDC (String.mk (req.authorization.data.drop 7))] := by
    unfold TokenHandler
    rw [if_neg (by simp [hpath]), if_neg (by simp [hmethod]), if_neg (by simp [hne]),
      if_neg (by simp [hbear])]
    simp only [if_neg htok, hrepo, hpe]
  refine ⟨by rw [hrun]; rfl, ?_, ?_⟩
  · intro c hc
    rw [hrun] at hc
    simp only [writeError, List.mem_singleton] at hc
    exact ⟨_, hc⟩
  · intro hval
    rcases parseScopes_dup_message req.query hdup hval with ⟨p, hp, hpmsg⟩
    have : pe = .duplicateScope p := by
      rw [hpe] at hpmsg
      exact (Except.error.injEq _ _).mp hpmsg
    refine ⟨p, hp, ?_⟩
    rw [hrun, this]
    rfl

/-- Witness for C2 at the concrete request of scenario D: the query holds
contents twice with differing values, and the response is the 400
duplicate-scope error with only the identity verification call made. -/
theorem tokenHandler_duplicateScope_witness :
    (TokenHandler
        { method := "POST", path := "/token", authorization := "Bearer tok",
          query := [{ param := "contents", firstValue := "read", restValues := ["write"] }] }
        happyEnv).response.status = 400 ∧
    (∃ p, (∃ e ∈ [({ param := "contents", firstValue := "read", restValues := ["write"] } : QueryEntry)],
        e.param = p ∧ e.restValues ≠ []) ∧
      (TokenHandler
        { method := "POST", path := "/token", authorization := "Bearer tok",
          query := [{ param := "contents", firstValue := "read", restValues := ["write"] }] }
        happyEnv).response.body =
        .failure { error := ParseScopeError.message (.duplicateScope p), details := none }) := by
  have h := tokenHandler_duplicateScope
    { method := "POST", path := "/token", authorization := "Bearer tok",
      query := [{ param := "contents", firstValue := "read", restValues := ["write"] }] }
    happyEnv rfl rfl (by decide) (by decide) (by decide)
    ⟨"acme/widgets", rfl⟩
    ⟨{ param := "contents", firstValue := "read", restValues := ["write"] }, by decide, by decide⟩
  exact ⟨h.1, h.2.2 (by decide)⟩

/-- Counterexample for C2 as stated: first, a request whose query holds the
duplicated parameter contents together with the parameter issues carrying
the invalid value bogus, under an iteration order that visits issues first
(Go map iteration order is unspecified), is answered 400 with the
invalid-permission error rather than a duplicate-scope error; second, an
inbound request with the same duplicated parameter but no Authorization
header is answered 401, not 400. -/
theorem tokenHandler_duplicateScope_counterexample :
    ([({ param := "issues", firstValue := "bogus", restValues := [] } : QueryEntry),
      { param := "contents", firstValue := "read", restValues := ["write"] }].any
        (fun e => !e.restValues.isEmpty)) = true ∧
    (TokenHandler
        { method := "POST", path := "/token", authorization := "Bearer tok",
          query := [{ param := "issues", firstValue := "bogus", restValues := [] },
            { param := "contents", firstValue := "read", restValues := ["write"] }] }
        happyEnv).response =
      { status := 400,
        body := .failure
          { error := ParseScopeError.message (.invalidPermission "issues" "bogus"),
            details := none } } ∧
    ParseScopeError.message (.invalidPermission "issues" "bogus") ≠
      ParseScopeError.message (.duplicateScope "contents") ∧
    (TokenHandler
        { method := "POST", path := "/token", authorization := "",
          query := [{ param := "contents", firstValue := "read", restValues := ["write"] }] }
        happyEnv).response.status = 401 := by
  refine ⟨by decide, by decide, by decide, by decide⟩

/-- Helper: the per-pair check passes exactly when the pair is valid. -/
lemma checkScope_none_iff (scopeID permission : String) :
    checkScope scopeID permission = none ↔ scopePairValid scopeID permission := by
  unfold checkScope scopePairValid BlacklistedScopes
  cases hA : AllowedScopes scopeID <;> simp [hA]

/-- Helper: a failed per-pair check names the offending scope. -/
lemma checkScope_some_scope (scopeID permission : String) (e : ScopeValidationError)
    (h : checkScope scopeID permission = some e) : e.scopeID = scopeID := by
  unfold checkScope at h
  split at h
  · cases h
    rfl
  · split at h
    · cases h
      rfl
    · split at h
      · exact Option.noConfusion h
      · cases h
        rfl

/-- Helper: ValidateScopes on a cons reduces through the head check. -/
lemma validateScopes_cons (scopeID permission : String) (rest : List (String × String)) :
    ValidateScopes ((scopeID, permission) :: rest) =
      match checkScope scopeID permission with
      | some e => .error e
      | none => ValidateScopes rest := rfl

/-- Helper: ValidateScopes succeeds exactly when every pair passes the
blacklist, allowlist and level checks. -/
lemma validateScopes_ok_iff (scopes : List (String × String)) :
    ValidateScopes scopes = .ok () ↔ ∀ sp ∈ scopes, scopePairValid sp.1 sp.2 := by
  induction scopes with
  | nil => simp [ValidateScopes]
  | cons sp rest ih =>
    rcases sp with ⟨scopeID, permission⟩
    rw [validateScopes_cons]
    rcases hcs : checkScope scopeID permission with - | e
    · have hv := (checkScope_none_iff scopeID permission).mp hcs
      simp only [List.forall_mem_cons, ih]
      simp [hv]
    · simp only [List.forall_mem_cons]
      constructor
      · intro h
        exact Except.noConfusion h
      · rintro ⟨hhead, -⟩
        exact absurd ((checkScope_none_iff scopeID permission).mpr hhead)
          (by simp [hcs])

/-- Helper: a ValidateScopes failure names a violating pair of the input. -/
lemma validateScopes_error_shape (scopes : List (String × String))
    (e : ScopeValidationError) (h : ValidateScopes scopes = .error e) :
    ∃ sp ∈ scopes, ¬scopePairValid sp.1 sp.2 ∧ e.scopeID = sp.1 := by
  induction scopes with
  | nil => exact Except.noConfusion h
  | cons sp rest ih =>
    rcases sp with ⟨scopeID, permission⟩
    rw [validateScopes_cons] at h
    rcases hcs : checkScope scopeID permission with _ | e2 <;> rw [hcs] at h
    · rcases ih h with ⟨sp2, hm, hv, hid⟩
      exact ⟨sp2, List.mem_cons_of_mem _ hm, hv, hid⟩
    · cases h
      refine ⟨(scopeID, permission), List.mem_cons_self _ _, ?_, ?_⟩
      · intro hv
        exact absurd ((checkScope_none_iff scopeID permission).mpr hv) (by simp [hcs])
      · exact checkScope_some_scope scopeID permission _ hcs

/-- Helper: when no parsed scope list passes validation, the handler makes
no call beyond identity verification: no secret fetch, no installation
lookup, no token creation. -/
lemma tokenHandler_calls_of_invalid (req : HttpRequest) (env : Env)
    (h : ∀ scopes, parseScopes req.query = .ok scopes →
      ValidateScopes scopes = .ok () → False) :
    ∀ c ∈ (TokenHandler req env).calls, ∃ t, c = ExtCall.validateOIDC t := by
  intro c hc
  unfold TokenHandler at hc
  by_cases h1 : req.path ≠ "/token"
  · rw [if_pos h1] at hc
    simp [writeError] at hc
  rw [if_neg h1] at hc
  by_cases h2 : req.method ≠ "POST"
  · rw [if_pos h2] at hc
    simp [writeError] at hc
  rw [if_neg h2] at hc
  by_cases h3 : req.authorization = ""
  · rw [if_pos h3] at hc
    simp [writeError] at hc
  rw [if_neg h3] at hc
  by_cases h4 : ¬ ("Bearer ".data.isPrefixOf req.authorization.data = true)
  · rw [if_pos h4] at hc
    simp [writeError] at hc
  rw [if_neg h4] at hc
  by_cases h5 : String.mk (req.authorization.data.drop 7) = ""
  · simp only [if_pos h5, writeError] at hc
    simp at hc
  simp only [if_neg h5] at hc
  rcases h6 : env.validateOIDC (String.mk (req.authorization.data.drop 7)) with e | repo <;>
    simp only [h6] at hc
  · simp only [writeError, List.mem_singleton] at hc
    exact ⟨_, hc⟩
  rcases h7 : parseScopes req.query with pe | scopes <;> simp only [h7] at hc
  · simp only [writeError, List.mem_singleton] at hc
    exact ⟨_, hc⟩
  by_cases h8 : scopes.length = 0
  · simp only [if_pos h8, writeError, List.mem_singleton] at hc
    exact ⟨_, hc⟩
  simp only [if_neg h8] at hc
  rcases h9 : ValidateScopes scopes with ve | u <;> simp only [h9] at hc
  · simp only [writeError, List.mem_singleton] at hc
    exact ⟨_, hc⟩
  · exact absurd (h9.trans (congrArg Except.ok (by cases u; rfl))) (fun hv => h scopes h7 hv)

/-- C3: ValidateScopes returns success exactly when every (scope, level)
pair passes the blacklist check, the allowlist check and the level check
(applied per pair in that order, as the definition of checkScope shows);
any failure names some violating pair; and when the parsed scopes fail
validation the handler makes no call to the secret manager or the
third-party authority, only the earlier identity verification. -/
theorem validateScopes_spec :
    (∀ scopes : List (String × String),
      ValidateScopes scopes = .ok () ↔ ∀ sp ∈ scopes, scopePairValid sp.1 sp.2) ∧
    (∀ scopes e, ValidateScopes scopes = .error e →
      ∃ sp ∈ scopes, ¬scopePairValid sp.1 sp.2 ∧ e.scopeID = sp.1) ∧
    (∀ (req : HttpRequest) (env : Env) scopes e,
      parseScopes req.query = .ok scopes →
      ValidateScopes scopes = .error e →
      ∀ c ∈ (TokenHandler req env).calls, ∃ t, c = ExtCall.validateOIDC t) := by
  refine ⟨validateScopes_ok_iff, validateScopes_error_shape, ?_⟩
  intro req env scopes e hp hv
  refine tokenHandler_calls_of_invalid req env ?_
  intro scopes2 hp2 hv2
  have h12 : scopes = scopes2 := by
    have := hp.symm.trans hp2
    exact (Except.ok.injEq _ _).mp this
  rw [← h12, hv] at hv2
  exact Except.noConfusion hv2

/-- Witness for C3: a valid pair list passes, a write request on the
read-only administration scope is reported as a violation naming that
scope, and on a concrete request carrying it the handler makes no call
beyond identity verification. -/
theorem validateScopes_spec_witness :
    ValidateScopes [("contents", "read"), ("issues", "write")] = .ok () ∧
    (∃ sp ∈ [(("administration" : String), ("write" : String))],
      ¬scopePairValid sp.1 sp.2 ∧
      (ScopeValidationError.permissionNotAllowed "administration" "write" ["read"]).scopeID = sp.1) ∧
    (∀ c ∈ (TokenHandler
        { method := "POST", path := "/token", authorization := "Bearer tok",
          query := [{ param := "administration", firstValue := "write", restValues := [] }] }
        happyEnv).calls, ∃ t, c = ExtCall.validateOIDC t) := by
  refine ⟨(validateScopes_spec.1 _).mpr (by decide), ?_, ?_⟩
  · exact validateScopes_spec.2.1 [("administration", "write")]
      (.permissionNotAllowed "administration" "write" ["read"]) (by decide)
  · exact validateScopes_spec.2.2 _ happyEnv [("administration", "write")]
      (.permissionNotAllowed "administration" "write" ["read"]) (by decide) (by decide)

/-- Helper: a run of the issueToken tail that answers 200 carries a minted
token whose fields fill the success body, echoing the given scopes. -/
lemma issueToken_success (env : Env) (repository : String)
    (scopes : List (String × String)) (calls1 : List ExtCall)
    (h200 : (issueToken env repository scopes calls1).response.status = 200) :
    ∃ tok, env.createInstallationTokenResult = .ok tok ∧
      (issueToken env repository scopes calls1).response.body =
        .success
          { token := tok.token
            expiresAt := formatRFC3339 tok.expiresAt
            scopes := scopes } := by
  unfold issueToken at h200 ⊢
  by_cases h1 : (if env.googleCloudProject ≠ "" then env.googleCloudProject
      else env.gcpProject) = ""
  · rw [if_pos h1] at h200
    simp [writeError] at h200
  rw [if_neg h1] at h200 ⊢
  rcases h2 : env.getPrivateKeyResult with e | pk <;> simp only [h2] at h200 ⊢
  · simp [writeError] at h200
  rcases h3 : env.createJWTResult with e | jwtStr <;> simp only [h3] at h200 ⊢
  · simp [writeError] at h200
  rcases h4 : env.getInstallationIDResult with e | installationID <;>
    simp only [h4] at h200 ⊢
  · by_cases h5 : (goContains e "not installed") = true
    · rw [if_pos h5] at h200
      simp [writeError] at h200
    · rw [if_neg h5] at h200
      simp [writeError] at h200
  rcases h6 : env.createInstallationTokenResult with e | tok <;> simp only [h6] at h200 ⊢
  · by_cases h7 : (goContains e "insufficient permissions" || goContains e "fewer scopes" ||
        goContains e "suspended") = true
    · rw [if_pos h7] at h200
      simp [writeError] at h200
    · rw [if_neg h7] at h200
      simp [writeError] at h200
  · exact ⟨tok, rfl, rfl⟩

/-- Helper: every handler run either ends in writeError with a non-200
status, or passes every check and hands off to the issueToken tail. -/
lemma tokenHandler_shape (req : HttpRequest) (env : Env) :
    (∃ st msg calls, st ≠ 200 ∧ TokenHandler req env = writeError st msg none calls) ∨
    (∃ repo scopes,
      env.validateOIDC (String.mk (req.authorization.data.drop 7)) = .ok repo ∧
      parseScopes req.query = .ok scopes ∧ scopes.length ≠ 0 ∧
      ValidateScopes scopes = .ok () ∧
      TokenHandler req env =
        issueToken env repo scopes
          [.validateOIDC (String.mk (req.authorization.data.drop 7))]) := by
  by_cases h1 : req.path ≠ "/token"
  · exact Or.inl ⟨404, _, _, by decide, by unfold TokenHandler; rw [if_pos h1]⟩
  by_cases h2 : req.method ≠ "POST"
  · exact Or.inl ⟨405, _, _, by decide,
      by unfold TokenHandler; rw [if_neg h1, if_pos h2]⟩
  by_cases h3 : req.authorization = ""
  · exact Or.inl ⟨401, _, _, by decide,
      by unfold TokenHandler; rw [if_neg h1, if_neg h2, if_pos h3]⟩
  by_cases h4 : ¬ ("Bearer ".data.isPrefixOf req.authorization.data = true)
  · exact Or.inl ⟨401, _, _, by decide,
      by unfold TokenHandler; rw [if_neg h1, if_neg h2, if_neg h3, if_pos h4]⟩
  by_cases h5 : String.mk (req.authorization.data.drop 7) = ""
  · exact Or.inl ⟨401, _, _, by decide,
      by unfold TokenHandler
         rw [if_neg h1, if_neg h2, if_neg h3, if_neg h4]
         simp only [if_pos h5]
         rfl⟩
  rcases h6 : env.validateOIDC (String.mk (req.authorization.data.drop 7)) with e | repo
  · refine Or.inl ⟨401, "invalid OIDC token: " ++ e,
      [.validateOIDC (String.mk (req.authorization.data.drop 7))], by decide, ?_⟩
    unfold TokenHandler
    rw [if_neg h1, if_neg h2, if_neg h3, if_neg h4]
    simp only [if_neg h5, h6]
  rcases h7 : parseScopes req.query with pe | scopes
  · refine Or.inl ⟨400, pe.message,
      [.validateOIDC (String.mk (req.authorization.data.drop 7))], by decide, ?_⟩
    unfold TokenHandler
    rw [if_neg h1, if_neg h2, if_neg h3, if_neg h4]
    simp only [if_neg h5, h6, h7]
  by_cases h8 : scopes.length = 0
  · refine Or.inl ⟨400, "at least one scope is required",
      [.validateOIDC (String.mk (req.authorization.data.drop 7))], by decide, ?_⟩
    unfold TokenHandler
    rw [if_neg h1, if_neg h2, if_neg h3, if_neg h4]
    simp only [if_neg h5, h6, h7, if_pos h8]
  rcases h9 : ValidateScopes scopes with ve | u
  · refine Or.inl ⟨400, ve.message,
      [.validateOIDC (String.mk (req.authorization.data.drop 7))], by decide, ?_⟩
    unfold TokenHandler
    rw [if_neg h1, if_neg h2, if_neg h3, if_neg h4]
    simp only [if_neg h5, h6, h7, if_neg h8, h9]
  · refine Or.inr ⟨repo, scopes, rfl, rfl, h8, by cases u; exact h9, ?_⟩
    unfold TokenHandler
    rw [if_neg h1, if_neg h2, if_neg h3, if_neg h4]
    simp only [if_neg h5, h6, h7, if_neg h8, h9]

/-- C7: every request the handler answers 200 carries a JSON body holding
the minted credential string under token, the credential expiry rendered by
the RFC3339 formatter under expires_at, and under scopes exactly the scope
map parsed from the request query, pair for pair. -/
theorem tokenHandler_success_response (req : HttpRequest) (env : Env)
    (h200 : (TokenHandler req env).response.status = 200) :
    ∃ scopes tok,
      parseScopes req.query = .ok scopes ∧
      scopes = req.query.map (fun e => (e.param, e.firstValue)) ∧
      env.createInstallationTokenResult = .ok tok ∧
      (TokenHandler req env).response.body =
        .success
          { token := tok.token
            expiresAt := formatRFC3339 tok.expiresAt
            scopes := scopes } := by
  rcases tokenHandler_shape req env with ⟨st, msg, calls, hne, heq⟩ |
    ⟨repo, scopes, h6, h7, h8, h9, heq⟩
  · rw [heq] at h200
    exact absurd h200 hne
  · rw [heq] at h200 ⊢
    rcases issueToken_success env repo scopes _ h200 with ⟨tok, htok, hbody⟩
    exact ⟨scopes, tok, h7, parseScopes_ok_shape _ _ h7, htok, hbody⟩

/-- Request of scenario A: contents write plus issues read, with a Bearer
token. -/
def scenarioAReq : HttpRequest :=
  { method := "POST", path := "/token", authorization := "Bearer tok",
    query := [{ param := "contents", firstValue := "write", restValues := [] },
      { param := "issues", firstValue := "read", restValues := [] }] }

/-- Witness for C7 at the concrete request of scenario A. -/
theorem tokenHandler_success_response_witness :
    (TokenHandler scenarioAReq happyEnv).response.status = 200 ∧
    (∃ scopes tok,
      parseScopes scenarioAReq.query = .ok scopes ∧
      scopes = scenarioAReq.query.map (fun e => (e.param, e.firstValue)) ∧
      happyEnv.createInstallationTokenResult = .ok tok ∧
      (TokenHandler scenarioAReq happyEnv).response.body =
        .success
          { token := tok.token
            expiresAt := formatRFC3339 tok.expiresAt
            scopes := scopes }) :=
  ⟨by decide, tokenHandler_success_response scenarioAReq happyEnv (by decide)⟩

/-- C4: the Bearer scheme comparison in the source is a case-sensitive
prefix check, so a request carrying the lowercase header bearer followed by
a token is answered 401 with the invalid-format error, although the spec
and the test file handlers_test.go require the scheme comparison to be
case-insensitive. -/
theorem tokenHandler_lowercaseBearer_rejected :
    ("Bearer ".data.isPrefixOf "bearer h.p.s".data) = false ∧
    TokenHandler
        { method := "POST", path := "/token", authorization := "bearer h.p.s",
          query := [{ param := "contents", firstValue := "read", restValues := [] }] }
        happyEnv =
      writeError 401
        "invalid Authorization header format (expected \x27Bearer <token>\x27)" none [] :=
  ⟨by decide, by decide⟩

/-- Environment whose identity verification resolves to a repository owned
by an owner outside the configured allowlist. -/
def foreignOwnerEnv : Env :=
  { happyEnv with
    githubAllowedOwners := "acme"
    validateOIDC := fun _ => .ok "evil/repo" }

/-- C5: the owner allowlist is parsed and checked by ValidateOwnerAllowed,
which rejects the owner evil under the configured allowlist acme, yet
TokenHandler never consults it: the run for that subject still reaches the
installation lookup and the token creation and answers 200. -/
theorem tokenHandler_ownerAllowlist_not_enforced :
    ParseAllowedOwners "acme" = ["acme"] ∧
    ValidateOwnerAllowed "evil/repo" ["acme"] = .error (.ownerNotAllowed "evil") ∧
    (TokenHandler
        { method := "POST", path := "/token", authorization := "Bearer tok",
          query := [{ param := "contents", firstValue := "read", restValues := [] }] }
        foreignOwnerEnv).response.status = 200 ∧
    ExtCall.getInstallationID "evil/repo" ∈
      (TokenHandler
        { method := "POST", path := "/token", authorization := "Bearer tok",
          query := [{ param := "contents", firstValue := "read", restValues := [] }] }
        foreignOwnerEnv).calls ∧
    ExtCall.createInstallationToken 42 [("contents", "read")] ∈
      (TokenHandler
        { method := "POST", path := "/token", authorization := "Bearer tok",
          query := [{ param := "contents", firstValue := "read", restValues := [] }] }
        foreignOwnerEnv).calls :=
  ⟨by decide, by decide, by decide, by decide, by decide⟩

/-- Environment whose token creation fails because the installation lacks a
requested permission, as in scenario C where only contents write is
granted. -/
def insufficientEnv : Env :=
  { happyEnv with
    createInstallationTokenResult :=
      .error "installation has insufficient permissions: missing scopes [deployments]" }

/-- C6: for scenario C the computed missing set is the deployments scope,
and the handler surfaces the insufficient-permissions failure as 403, but
the error body carries no details object at all: writeError receives none,
so no requested, granted or missing list appears in the response. -/
theorem tokenHandler_insufficient_noDetails :
    VerifyRequestedScopes [("contents", "write"), ("deployments", "write")]
        (some { contents := some "write" }) =
      .error (.insufficientPermissions ["deployments"]) ∧
    (TokenHandler
        { method := "POST", path := "/token", authorization := "Bearer tok",
          query := [{ param := "contents", firstValue := "write", restValues := [] },
            { param := "deployments", firstValue := "write", restValues := [] }] }
        insufficientEnv).response =
      { status := 403,
        body := .failure
          { error := "installation has insufficient permissions: missing scopes [deployments]",
            details := none } } :=
  ⟨by decide, by decide⟩

end TokenIssuer
